import Mathlib

/-!
# Verification development for the Howl LAN file-transfer core

Shallow embedding of the transfer/verification/discovery coordination layer
of the Howl repository (TypeScript), together with theorems settling the
frozen claims about it.  Pure functions of the source become Lean functions;
stateful handlers become explicit state-passing functions; JavaScript numbers
on the code paths modelled here are integers, modelled as `Int`/`Nat`
(`NaN` is modelled as `none` of an `Option`); the external SHA-256 routine
is a function parameter; random values (session tokens, upload ids) are
explicit inputs of the functions that draw them.
-/

namespace Howl

/-! ## JavaScript primitive semantics -/

/-- Truthiness of a JavaScript string that may be `undefined`:
`undefined` and the empty string are falsy. -/
def jsTruthy : Option String → Bool
  | none => false
  | some s => !(s = "")

/-- Truthiness of a JavaScript number that may be `undefined`:
`undefined` and `0` are falsy. -/
def jsTruthyNum : Option Int → Bool
  | none => false
  | some n => !(n = 0)

/-- `a || b` on possibly-undefined strings: the left operand when truthy,
otherwise the right one. -/
def jsOrStr (a : Option String) (b : String) : String :=
  if jsTruthy a then a.getD "" else b

/-- The ASCII whitespace characters relevant to the headers and codes the
program trims. -/
def isWsChar (c : Char) : Bool :=
  c = ' ' || c = '\t' || c = '\n' || c = '\r'

/-- Model of `String.prototype.trim`: strip whitespace from both ends. -/
def jsTrim (s : String) : String :=
  String.mk (((s.toList.dropWhile isWsChar).reverse.dropWhile isWsChar).reverse)

/-- Numeric value of a list of decimal digit characters (most significant
first), as `parseInt` accumulates it. -/
def digitsVal (l : List Char) : Nat :=
  l.foldl (fun a c => a * 10 + (c.toNat - 48)) 0

/-- Model of `parseInt(s, 10)`: skip leading whitespace, an optional sign,
then read the longest prefix of decimal digits; `none` models `NaN`. -/
def jsParseIntL (l : List Char) : Option Int :=
  let t := l.dropWhile isWsChar
  match t with
  | '-' :: rest =>
      let ds := rest.takeWhile Char.isDigit
      if ds.isEmpty then none else some (-(digitsVal ds : Int))
  | '+' :: rest =>
      let ds := rest.takeWhile Char.isDigit
      if ds.isEmpty then none else some ((digitsVal ds : Int))
  | other =>
      let ds := other.takeWhile Char.isDigit
      if ds.isEmpty then none else some ((digitsVal ds : Int))

/-- `parseInt` on a Lean string. -/
def jsParseInt (s : String) : Option Int :=
  jsParseIntL s.toList

/-- Model of `s.split('-')` on the character list of `s`. -/
def splitOnDash : List Char → List (List Char)
  | [] => [[]]
  | c :: rest =>
      if c = '-' then [] :: splitOnDash rest
      else
        match splitOnDash rest with
        | [] => [[c]]
        | p :: ps => (c :: p) :: ps

/-- Model of `s.replace(pat, '')` for a plain-text pattern: remove the first
occurrence of `pat`, leave the string unchanged when `pat` does not occur. -/
def removeFirst (pat : List Char) : List Char → List Char
  | [] => []
  | c :: rest =>
      if pat.isPrefixOf (c :: rest) then (c :: rest).drop pat.length
      else c :: removeFirst pat rest

/-- Model of `s.includes(sub)`. -/
def listIncludes (sub : List Char) : List Char → Bool
  | [] => sub.isEmpty
  | c :: rest => pat₀ (c :: rest) || listIncludes sub rest
where pat₀ (l : List Char) : Bool := sub.isPrefixOf l

/-! ## Association lists standing for JavaScript `Map` objects -/

/-- `Map.get`: the value stored under a key, if any. -/
def alGet {α : Type} (k : String) : List (String × α) → Option α
  | [] => none
  | (k', v) :: rest => if k' = k then some v else alGet k rest

/-- `Map.set`: replace the value under an existing key in place, otherwise
append a fresh entry (JavaScript maps keep insertion order). -/
def alSet {α : Type} (k : String) (v : α) : List (String × α) → List (String × α)
  | [] => [(k, v)]
  | (k', v') :: rest => if k' = k then (k', v) :: rest else (k', v') :: alSet k v rest

/-- `Map.delete`: remove what is stored under a key.  Since `alSet` never
creates duplicate keys, removing every entry with the key is the same as
removing the one entry a JavaScript map holds. -/
def alDelete {α : Type} (k : String) : List (String × α) → List (String × α)
  | [] => []
  | (k', v') :: rest => if k' = k then alDelete k rest else (k', v') :: alDelete k rest

/-! ## `parseRange` (packages/core/src/utils.ts) -/

/-- The byte range a `Range: bytes=start-end` header denotes.  The source
names the second field `end`, which Lean reserves; `endPos` stands for it. -/
structure ByteRange where
  start : Int
  endPos : Int
  deriving Repr, DecidableEq

/-- Core of `parseRange`, on the character list following `bytes=`. -/
def parseRangeValue (rangeValue : List Char) (totalSize : Int) : Option ByteRange :=
  if rangeValue.isEmpty then none
  else
    let parts := splitOnDash rangeValue
    let p0 := (parts.get? 0).getD []
    let p1 := parts.get? 1
    if p0.isEmpty && jsTruthy (p1.map String.mk) then
      match jsParseIntL (p1.getD []) with
      | none => none
      | some suffix =>
          if suffix ≤ 0 then none
          else some ⟨max 0 (totalSize - suffix), totalSize - 1⟩
    else
      match jsParseIntL p0 with
      | none => none
      | some start =>
          let endv : Option Int :=
            if jsTruthy (p1.map String.mk) then jsParseIntL (p1.getD [])
            else some (totalSize - 1)
          match endv with
          | none => none
          | some e =>
              if start < 0 || start ≥ totalSize || start > e then none
              else some ⟨start, min e (totalSize - 1)⟩

/-- `parseRange(rangeHeader, totalSize)`: `none` models `null`. -/
def parseRange (rangeHeader : String) (totalSize : Int) : Option ByteRange :=
  match rangeHeader.toList with
  | 'b' :: 'y' :: 't' :: 'e' :: 's' :: '=' :: rangeValue =>
      parseRangeValue rangeValue totalSize
  | _ => none

/-! ## VerificationManager (packages/core/src/utils/verification-manager.ts) -/

/-- State of a `VerificationManager`: the 6-digit code fixed at construction
and the set of session tokens issued so far.  Token generation uses
`Math.random`; the fresh random string is an explicit argument of the
operations that draw one. -/
structure VerificationManager where
  verificationCode : String
  verifiedSessions : List String
  deriving Repr, DecidableEq

namespace VerificationManager

/-- `getCode()`. -/
def getCode (vm : VerificationManager) : String :=
  vm.verificationCode

/-- `addSession(token)`. -/
def addSession (vm : VerificationManager) (token : String) : VerificationManager :=
  { vm with verifiedSessions := vm.verifiedSessions ++ [token] }

/-- `isSessionVerified(token)`: falsy tokens (missing or empty) are rejected
before the set lookup. -/
def isSessionVerified (vm : VerificationManager) (token : Option String) : Bool :=
  if !(jsTruthy token) then false
  else vm.verifiedSessions.contains (token.getD "")

/-- `verifyAndCreateSession(code)`: trim the input (`code?.trim()` leaves
`undefined` as-is), compare with the stored code, and on a match mint the
fresh token, store it and return it. -/
def verifyAndCreateSession (vm : VerificationManager) (code : Option String)
    (freshToken : String) : (Bool × Option String) × VerificationManager :=
  let trimmedCode := code.map jsTrim
  if trimmedCode = some vm.verificationCode then
    ((true, some freshToken), vm.addSession freshToken)
  else
    ((false, none), vm)

/-- `clearSessions()`. -/
def clearSessions (vm : VerificationManager) : VerificationManager :=
  { vm with verifiedSessions := [] }

end VerificationManager

/-! ## Sender (packages/core/src/transport/lan-sender.ts, latest snapshot) -/

/-- `FileMetadata` of types.ts. -/
structure FileMetadata where
  id : String
  name : String
  size : Int
  mimeType : Option String
  path : Option String
  deriving Repr, DecidableEq

namespace LanSender

/-- The observable events the sender emits on the request paths modelled
here (chunk-level `progress` events are omitted; no claim mentions them). -/
inductive SenderEvent where
  | connection
  | verificationRequired
  | transferStarted
  | completedEv
  | transferCompleted (downloadCount : Nat)
  | downloadLimitReached (currentCount : Nat)
  deriving Repr, DecidableEq

/-- Sender state: registered files keyed by id, the verification manager,
the download counter and quota, the verification toggle, and the sizes
`fs.statSync` reports for the files on disk. -/
structure SenderState where
  files : List (String × FileMetadata)
  verificationManager : VerificationManager
  downloadCount : Nat
  maxDownloads : Nat
  requireVerification : Bool
  disk : List (String × Int)
  deriving Repr, DecidableEq

/-- Response of the file-serving path.  For a 206 the `Content-Range` header
carries the start/end the handler computed; `none` models `NaN`. -/
structure GetResponse where
  status : Nat
  rangeStart : Option Int
  rangeEnd : Option Int
  deriving Repr, DecidableEq

/-- File resolution: exact id match in the map, else first file whose `name`
equals the requested id; `!fileMetadata || !fileMetadata.path` rejects a
missing or falsy path. -/
def resolveFile (st : SenderState) (fileId : String) : Option (FileMetadata × String) :=
  let byId := alGet fileId st.files
  let fileMetadata : Option FileMetadata :=
    match byId with
    | some m => some m
    | none => (st.files.find? (fun (p : String × FileMetadata) => p.2.name = fileId)).map (·.2)
  match fileMetadata with
  | none => none
  | some meta =>
      match meta.path with
      | none => none
      | some p => if p = "" then none else some (meta, p)

/-- The inline Range parse of the serving path:
`parts = range.replace(/bytes=/,'').split('-')`, start is
`parseInt(parts[0])` and end is `parseInt(parts[1])` when `parts[1]` is
truthy, else `fileSize - 1`; `none` models `NaN`. -/
def rangeBounds (r : String) (fileSize : Int) : Option Int × Option Int :=
  let parts := splitOnDash (removeFirst "bytes=".toList r.toList)
  (jsParseIntL ((parts.get? 0).getD []),
   if jsTruthy ((parts.get? 1).map String.mk) then
     jsParseIntL ((parts.get? 1).getD [])
   else some (fileSize - 1))

/-- The option validation of `fs.createReadStream(filePath, { start, end })`:
it throws `ERR_OUT_OF_RANGE` synchronously when `start` or `end` is `NaN` or
negative, or when `start > end`; the stream is created only when both bounds
are non-negative integers with `start ≤ end`. -/
def streamOk : Option Int × Option Int → Bool
  | (some s, some e) => decide (0 ≤ s) && decide (0 ≤ e) && decide (s ≤ e)
  | _ => false

/-- The file-download branch of `LanSender.handleRequest`, for a `GET` of
`fileId` with the session token already extracted from query or header.
A stream that `fs.createReadStream` accepts runs to completion before the
next request is handled (the sequential client of the spec's scenarios);
when `fs.createReadStream` throws on an invalid range, the 206 status line
and headers are already committed by `res.writeHead`, no transfer event has
fired yet and no state changes (the base server's catch then writes an error
body under the committed 206).  The result is `none` when `fs.statSync`
would throw (file vanished from disk), which the base server turns into a
500.  Events are listed in emission order. -/
def handleGet (st : SenderState) (fileId : String) (token : Option String)
    (range : Option String) : Option (GetResponse × List SenderEvent × SenderState) :=
  match resolveFile st fileId with
  | none => some (⟨404, none, none⟩, [SenderEvent.connection], st)
  | some (_, filePath) =>
      if st.requireVerification && !(st.verificationManager.isSessionVerified token) then
        some (⟨403, none, none⟩, [SenderEvent.connection, SenderEvent.verificationRequired], st)
      else if decide (0 < st.maxDownloads) && decide (st.maxDownloads ≤ st.downloadCount) then
        some (⟨429, none, none⟩, [SenderEvent.connection], st)
      else
        match alGet filePath st.disk with
        | none => none
        | some fileSize =>
            let newCount := st.downloadCount + 1
            let limitEvs :=
              if decide (0 < st.maxDownloads) && decide (st.maxDownloads ≤ newCount) then
                [SenderEvent.downloadLimitReached newCount]
              else []
            match range with
            | some r =>
                let bounds := rangeBounds r fileSize
                if streamOk bounds then
                  some (⟨206, bounds.1, bounds.2⟩,
                    [SenderEvent.connection, SenderEvent.transferStarted,
                      SenderEvent.transferCompleted newCount] ++ limitEvs,
                    { st with downloadCount := newCount })
                else
                  -- fs.createReadStream threw: headers already sent as 206,
                  -- no transfer events, no increment
                  some (⟨206, bounds.1, bounds.2⟩, [SenderEvent.connection], st)
            | none =>
                some (⟨200, none, none⟩,
                  [SenderEvent.connection, SenderEvent.transferStarted, SenderEvent.completedEv,
                    SenderEvent.transferCompleted newCount] ++ limitEvs,
                  { st with downloadCount := newCount })

/-- A `GET /<fileId>` request as the download path sees it. -/
structure GetReq where
  fileId : String
  token : Option String
  range : Option String
  deriving Repr, DecidableEq

/-- Sequential processing of a list of download requests. -/
def runGets (st : SenderState) :
    List GetReq → Option (List (GetResponse × List SenderEvent) × SenderState)
  | [] => some ([], st)
  | r :: rest =>
      match handleGet st r.fileId r.token r.range with
      | none => none
      | some (resp, evs, st') =>
          match runGets st' rest with
          | none => none
          | some (out, stf) => some ((resp, evs) :: out, stf)

/-- Body of a `POST /verify` request after `JSON.parse`: either the parse
threw, or it produced an object whose `code` property may be absent. -/
inductive VerifyBody where
  | malformed
  | parsed (code : Option String)
  deriving Repr, DecidableEq

/-- Response of `POST /verify`. -/
structure VerifyResponse where
  status : Nat
  success : Bool
  sessionToken : Option String
  deriving Repr, DecidableEq

/-- `LanSender.handleVerification`: parse the body, trim the submitted code
(`data.code?.trim()`), and delegate to the verification manager. -/
def handleVerification (vm : VerificationManager) (body : VerifyBody)
    (freshToken : String) : VerifyResponse × VerificationManager :=
  match body with
  | .malformed => (⟨400, false, none⟩, vm)
  | .parsed codeProp =>
      let code := codeProp.map jsTrim
      let r := vm.verifyAndCreateSession code freshToken
      if r.1.1 && jsTruthy r.1.2 then
        (⟨200, true, r.1.2⟩, r.2)
      else
        (⟨200, false, none⟩, r.2)

end LanSender

/-! ## Receiver server role (types.ts latest snapshot: LanReceiver) -/

namespace LanReceiver

/-- A stored `PendingUpload` (`UploadRequest` in the source). -/
structure UploadRequest where
  id : String
  filename : String
  size : Int
  hash : String
  createdAt : Int
  modifiedAt : Int
  verificationManager : VerificationManager
  timestamp : Int
  verified : Bool
  deriving Repr, DecidableEq

/-- Receiver server state.  `disk` maps a path in the upload directory to the
bytes written there.  In global verification mode every pending upload shares
`globalVerificationManager`; the claims settled here touch a single entry's
manager only, so entries hold their manager by value. -/
structure ReceiverState where
  uploadCount : Nat
  maxUploads : Nat
  uploadDir : String
  pendingUploads : List (String × UploadRequest)
  requirePerFileVerification : Bool
  globalVerificationManager : Option VerificationManager
  disk : List (String × List Nat)
  deriving Repr, DecidableEq

/-- JSON response of the two upload endpoints. -/
structure UploadResponse where
  status : Nat
  success : Bool
  message : String
  deriving Repr, DecidableEq

/-- Value part of `FileUtils.extractBoundary`'s regex
`boundary=(?:"([^"]+)"|([^;]+))` at one candidate position: a non-empty
quoted group, else a non-empty run of characters other than a semicolon. -/
def matchBoundaryValue (l : List Char) : Option String :=
  let quoted : Option String :=
    match l with
    | '"' :: rest =>
        let q := rest.takeWhile (fun c => !(c = '"'))
        match rest.drop q.length with
        | '"' :: _ => if q.isEmpty then none else some (String.mk q)
        | _ => none
    | _ => none
  match quoted with
  | some s => some s
  | none =>
      let u := l.takeWhile (fun c => !(c = ';'))
      if u.isEmpty then none else some (String.mk u)

/-- Scan for the first position where the regex of `extractBoundary`
matches. -/
def scanBoundary : List Char → Option String
  | [] => none
  | c :: rest =>
      if List.isPrefixOf "boundary=".toList (c :: rest) then
        match matchBoundaryValue ((c :: rest).drop 9) with
        | some s => some s
        | none => scanBoundary rest
      else scanBoundary rest

/-- `FileUtils.extractBoundary(contentType)`. -/
def extractBoundary (contentType : String) : Option String :=
  scanBoundary contentType.toList

/-- Outcome of `FileUtils.parseMultipartUpload` on the request body: the
single file part it resolves with, or the `No file found in upload`
rejection.  The regex `filename="([^"]+)"` cannot produce an empty filename,
but the handler's dead `!fileData.filename` check is kept, so an empty
filename is representable. -/
inductive BodyParse where
  | fileFound (filename : String) (contentType : String) (data : List Nat)
  | noFile
  deriving Repr, DecidableEq

/-- `LanReceiver.handleFileUpload` (stage 2).  Headers may be absent;
`sha256` stands for the external SHA-256 hex digest; `freshToken` is the
random token `verifyAndCreateSession` would mint. -/
def handleFileUpload (st : ReceiverState) (uploadId verificationCode fileHash : Option String)
    (contentType : String) (parseOutcome : BodyParse) (freshToken : String)
    (sha256 : List Nat → String) : UploadResponse × ReceiverState :=
  if !(jsTruthy uploadId) || !(jsTruthy verificationCode) || !(jsTruthy fileHash) then
    (⟨400, false, "Missing upload ID, verification code, or file hash"⟩, st)
  else
    let uid := uploadId.getD ""
    match alGet uid st.pendingUploads with
    | none => (⟨404, false, "Upload request not found or expired"⟩, st)
    | some uploadRequest =>
        let vres := uploadRequest.verificationManager.verifyAndCreateSession verificationCode freshToken
        let uploadRequest := { uploadRequest with verificationManager := vres.2 }
        let st := { st with pendingUploads := alSet uid uploadRequest st.pendingUploads }
        if !vres.1.1 then
          (⟨403, false, "Invalid verification code"⟩, st)
        else if !(uploadRequest.hash = fileHash.getD "") then
          (⟨400, false, "File hash does not match initial request"⟩, st)
        else
          let uploadRequest := { uploadRequest with verified := true }
          let st := { st with pendingUploads := alSet uid uploadRequest st.pendingUploads }
          if !(listIncludes "multipart/form-data".toList contentType.toList) then
            (⟨400, false, "Invalid content type"⟩, st)
          else
            match extractBoundary contentType with
            | none => (⟨400, false, "Invalid multipart boundary"⟩, st)
            | some _ =>
                match parseOutcome with
                | .noFile =>
                    -- the rejected promise lands in the handler's catch: 500
                    (⟨500, false, "No file found in upload"⟩, st)
                | .fileFound filename _fileCt data =>
                    if filename = "" then
                      (⟨400, false, "No file provided"⟩, st)
                    else
                      let filePath := st.uploadDir ++ "/" ++ uploadRequest.filename
                      let disk := alSet filePath data st.disk
                      let uploadedFileHash := sha256 ((alGet filePath disk).getD [])
                      if !(uploadedFileHash = uploadRequest.hash) then
                        (⟨400, false, "File integrity check failed"⟩,
                         { st with disk := alDelete filePath disk })
                      else
                        (⟨200, true, "Upload successful"⟩,
                         { st with
                           disk := disk,
                           uploadCount := st.uploadCount + 1,
                           pendingUploads := alDelete uid st.pendingUploads })

/-- Body of a stage-1 `POST /request-upload` after `JSON.parse`. -/
inductive Stage1Body where
  | malformed
  | parsed (filename : Option String) (size : Option Int) (hash : Option String)
      (createdAt : Option Int) (modifiedAt : Option Int)
  deriving Repr, DecidableEq

/-- `LanReceiver.handleUploadRequest1` (stage 1).  `now` is `Date.now()`;
`newUploadId` the 128-bit random hex id; `freshVm` the verification manager
a `new VerificationManager()` would produce.  The opportunistic cleanup at
the end drops every entry untouched for five minutes and never verified. -/
def handleUploadRequest1 (st : ReceiverState) (body : Stage1Body) (now : Int)
    (newUploadId : String) (freshVm : VerificationManager) : UploadResponse × ReceiverState :=
  match body with
  | .malformed => (⟨400, false, "Invalid request"⟩, st)
  | .parsed filename size hash createdAt modifiedAt =>
      if !(jsTruthy filename) || !(jsTruthyNum size) || !(jsTruthy hash) then
        (⟨400, false, "Missing required fields"⟩, st)
      else if decide (0 < st.maxUploads) && decide (st.maxUploads ≤ st.uploadCount) then
        (⟨429, false, "Upload limit reached"⟩, st)
      else
        let verificationManager :=
          if st.requirePerFileVerification then freshVm
          else st.globalVerificationManager.getD freshVm
        let gvm :=
          if st.requirePerFileVerification then st.globalVerificationManager
          else some (st.globalVerificationManager.getD freshVm)
        let uploadRequest : UploadRequest :=
          { id := newUploadId, filename := filename.getD "", size := size.getD 0,
            hash := hash.getD "",
            createdAt := if jsTruthyNum createdAt then createdAt.getD 0 else now,
            modifiedAt := if jsTruthyNum modifiedAt then modifiedAt.getD 0 else now,
            verificationManager := verificationManager,
            timestamp := now, verified := false }
        let pending := alSet newUploadId uploadRequest st.pendingUploads
        let fiveMinutesAgo := now - 5 * 60 * 1000
        let pending := pending.filter (fun p => !(decide (p.2.timestamp < fiveMinutesAgo) && !p.2.verified))
        (⟨200, true, "Upload request received. Enter the verification code shown on receiver to proceed."⟩,
         { st with pendingUploads := pending, globalVerificationManager := gvm })

end LanReceiver

/-! ## BaseHttpServer lifecycle (types.ts: BaseHttpServer, LanReceiver.destroy) -/

namespace BaseHttpServer

/-- Lifecycle events of the shared HTTP-server base class. -/
inductive ServerEvent where
  | serverStarted
  | serverStopped
  deriving Repr, DecidableEq

/-- Lifecycle state: whether `this.server` is set. -/
structure ServerState where
  serverRunning : Bool
  deriving Repr, DecidableEq

/-- `cleanup()`: drop the server reference, clear connections, and emit
`server-stopped` — unconditionally. -/
def cleanup (_st : ServerState) : ServerState × List ServerEvent :=
  (⟨false⟩, [ServerEvent.serverStopped])

/-- `stopServer()`: with no server, run `cleanup` and resolve; otherwise
close (all close and socket errors are swallowed) and run `cleanup`.  The
result is `some _` in every case — the promise never rejects. -/
def stopServer (st : ServerState) : Option (ServerState × List ServerEvent) :=
  if !st.serverRunning then
    some (cleanup st)
  else
    some (cleanup st)

/-- `LanReceiver.destroy()`: remove listeners, and stop the server only when
one is running. -/
def receiverDestroy (st : ServerState) : Option (ServerState × List ServerEvent) :=
  if st.serverRunning then stopServer st else some (st, [])

/-- Number of `server-stopped` emissions in an event list. -/
def countStopped (evs : List ServerEvent) : Nat :=
  (evs.filter (fun e => e = ServerEvent.serverStopped)).length

end BaseHttpServer

/-! ## Discovery (utils.ts latest snapshot: LanDiscovery;
apps/cli: DeviceDiscoveryService) -/

/-- `ServiceInfo` of types.ts. -/
structure ServiceInfo where
  id : String
  name : String
  host : String
  port : Int
  txt : List (String × String)
  deriving Repr, DecidableEq

namespace LanDiscovery

/-- A raw Bonjour service as the mDNS library reports it.  The
`service.host || addresses[0] || 'unknown'` fallback is collapsed into the
`host` field. -/
structure BonjourService where
  name : String
  host : String
  port : Int
  txt : List (String × String)
  deriving Repr, DecidableEq

/-- `LanDiscovery.parseService`: the record id is `txt.id || service.name`;
a falsy id rejects the service. -/
def parseService (service : BonjourService) : Option ServiceInfo :=
  let id := jsOrStr (alGet "id" service.txt) service.name
  if id = "" then none
  else some { id := id, name := service.name, host := service.host,
              port := service.port, txt := service.txt }

/-- The browser's `up` handler: store the parsed record under its `id`. -/
def onServiceUp (m : List (String × ServiceInfo)) (service : BonjourService) :
    List (String × ServiceInfo) :=
  match parseService service with
  | none => m
  | some serviceInfo => alSet serviceInfo.id serviceInfo m

/-- The browser's `down` handler: delete the record stored under the parsed
record's `id`. -/
def onServiceDown (m : List (String × ServiceInfo)) (service : BonjourService) :
    List (String × ServiceInfo) :=
  match parseService service with
  | none => m
  | some serviceInfo => alDelete serviceInfo.id m

end LanDiscovery

namespace DeviceDiscoveryService

/-- The CLI discovery mode. -/
inductive Mode where
  | send
  | receive
  deriving Repr, DecidableEq

/-- The key the CLI device map uses: `host:port`. -/
def serviceKey (service : ServiceInfo) : String :=
  service.host ++ ":" ++ toString service.port

/-- The CLI's `service-up` handler: filter by the peer's advertised role,
then store the service under `host:port`. -/
def onDeviceUp (mode : Mode) (m : List (String × ServiceInfo)) (service : ServiceInfo) :
    List (String × ServiceInfo) :=
  let role := alGet "role" service.txt
  if mode = Mode.send && !(role = some "receiver") then m
  else if mode = Mode.receive && !(role = some "sender") then m
  else alSet (serviceKey service) service m

/-- The CLI's `service-down` handler: delete the `host:port` entry when
present. -/
def onDeviceDown (m : List (String × ServiceInfo)) (service : ServiceInfo) :
    List (String × ServiceInfo) :=
  if (alGet (serviceKey service) m).isSome then alDelete (serviceKey service) m else m

end DeviceDiscoveryService

/-! ## Derived notions and concrete sample data used by the theorems -/

namespace LanSender

/-- Number of `transfer-completed` emissions in an event list. -/
def countCompleted (evs : List SenderEvent) : Nat :=
  (evs.filter (fun e => match e with
    | SenderEvent.transferCompleted _ => true
    | _ => false)).length

/-- Number of `download-limit-reached` emissions in an event list. -/
def countLimit (evs : List SenderEvent) : Nat :=
  (evs.filter (fun e => match e with
    | SenderEvent.downloadLimitReached _ => true
    | _ => false)).length

/-- A download request that resolves to a registered file that is on disk
and passes the verification gate: the requests the spec calls authorized. -/
def authorizedReq (st : SenderState) (r : GetReq) : Prop :=
  (∃ meta filePath, resolveFile st r.fileId = some (meta, filePath) ∧
    ∃ fileSize, alGet filePath st.disk = some fileSize) ∧
  (st.requireVerification = true → st.verificationManager.isSessionVerified r.token = true)

/-- A request whose download can run to completion: no `Range` header, or
one whose bounds pass `fs.createReadStream`'s option validation. -/
def rangeCompletes (fileSize : Int) : Option String → Prop
  | none => True
  | some r => streamOk (rangeBounds r fileSize) = true

/-- An authorized request whose download completes — the downloads the
spec's quota scenario counts. -/
def servableReq (st : SenderState) (r : GetReq) : Prop :=
  ∃ meta filePath fileSize,
    resolveFile st r.fileId = some (meta, filePath) ∧
    alGet filePath st.disk = some fileSize ∧
    (st.requireVerification = true → st.verificationManager.isSessionVerified r.token = true) ∧
    rangeCompletes fileSize r.range

end LanSender

/-- A sample verification manager with no sessions. -/
def sampleVm : VerificationManager := ⟨"123456", []⟩

/-- A sample pending upload: declared hash `"h"`, created at time 0, never
verified. -/
def sampleUr : LanReceiver.UploadRequest :=
  ⟨"id1", "f.txt", 3, "h", 0, 0, sampleVm, 0, false⟩

/-- A sample receiver holding `sampleUr` under id `"id1"`. -/
def sampleReceiver : LanReceiver.ReceiverState :=
  ⟨0, 0, "./downloads", [("id1", sampleUr)], false, none, []⟩

/-- A sample SHA-256 oracle: the bytes `[1, 2, 3]` hash to `"h"`. -/
def sampleSha : List Nat → String :=
  fun d => if d = [1, 2, 3] then "h" else "x"

/-- A sample registered file. -/
def sampleMeta : FileMetadata := ⟨"fid", "f.bin", 10, none, some "f.bin"⟩

/-- A sample sender: verification required, session `"tok"` verified,
`maxDownloads = 2`, no downloads yet, `sampleMeta` on disk. -/
def sampleSender : LanSender.SenderState :=
  ⟨[("fid", sampleMeta)], ⟨"123456", ["tok"]⟩, 0, 2, true, [("f.bin", 10)]⟩

/-- A sample authorized download request. -/
def sampleReq : LanSender.GetReq := ⟨"fid", some "tok", none⟩

/-- Two sample mDNS services advertising the same `txt.id` from different
`host:port` pairs. -/
def svcA : LanDiscovery.BonjourService := ⟨"nameA", "h1", 1, [("id", "x")]⟩

/-- Second sample service: same id `"x"`, different host and port. -/
def svcB : LanDiscovery.BonjourService := ⟨"nameB", "h2", 2, [("id", "x")]⟩

/-- The parsed record of `svcA`. -/
def siA : ServiceInfo := ⟨"x", "nameA", "h1", 1, [("id", "x")]⟩

/-- The parsed record of `svcB`. -/
def siB : ServiceInfo := ⟨"x", "nameB", "h2", 2, [("id", "x")]⟩

/-- A sample service record advertising the `sender` role. -/
def sampleRoleSvc : ServiceInfo := ⟨"x", "n", "h3", 3, [("role", "sender")]⟩

/-! ## General lemmas about the embedding's primitives -/

theorem alGet_alSet_self {α : Type} (k : String) (v : α) (m : List (String × α)) :
    alGet k (alSet k v m) = some v := by
  induction m with
  | nil => simp [alGet, alSet]
  | cons hd tl ih =>
      obtain ⟨k', v'⟩ := hd
      by_cases h : k' = k <;> simp [alGet, alSet, h, ih]

theorem alGet_alSet_ne {α : Type} (k k' : String) (v : α) (m : List (String × α))
    (h : k ≠ k') : alGet k' (alSet k v m) = alGet k' m := by
  induction m with
  | nil => simp [alGet, alSet, h]
  | cons hd tl ih =>
      obtain ⟨k₀, v₀⟩ := hd
      by_cases h₀ : k₀ = k
      · subst h₀
        simp [alGet, alSet, h]
      · simp [alGet, alSet, h₀, ih]

theorem alGet_alDelete_self {α : Type} (k : String) (m : List (String × α)) :
    alGet k (alDelete k m) = none := by
  induction m with
  | nil => simp [alGet, alDelete]
  | cons hd tl ih =>
      obtain ⟨k₀, v₀⟩ := hd
      by_cases h : k₀ = k
      · simp [alDelete, h, ih]
      · simp [alDelete, alGet, h, ih]

theorem alGet_alDelete_ne {α : Type} (k k' : String) (m : List (String × α))
    (h : k ≠ k') : alGet k' (alDelete k m) = alGet k' m := by
  induction m with
  | nil => simp [alGet, alDelete]
  | cons hd tl ih =>
      obtain ⟨k₀, v₀⟩ := hd
      by_cases h₀ : k₀ = k
      · subst h₀
        simp [alGet, alDelete, h, ih]
      · simp [alGet, alDelete, h₀, ih]

theorem mem_alSet_ne {α : Type} (k' : String) (v' : α) (k : String) (v : α) :
    ∀ m : List (String × α), (k, v) ∈ alSet k' v' m → k ≠ k' → (k, v) ∈ m := by
  intro m
  induction m with
  | nil =>
      intro hm hne
      simp [alSet] at hm
      exact absurd hm.1 hne
  | cons hd tl ih =>
      intro hm hne
      obtain ⟨k₀, v₀⟩ := hd
      by_cases h₀ : k₀ = k'
      · subst h₀
        simp only [alSet, if_pos rfl] at hm
        cases hm with
        | head => exact absurd rfl hne
        | tail _ h => exact List.mem_cons_of_mem _ h
      · simp only [alSet, if_neg h₀] at hm
        cases hm with
        | head => exact List.mem_cons_self _ _
        | tail _ h => exact List.mem_cons_of_mem _ (ih h hne)

theorem alGet_filter_none {α : Type} (q : String × α → Bool) (k : String)
    (m : List (String × α)) (h : ∀ v, (k, v) ∈ m → q (k, v) = false) :
    alGet k (m.filter q) = none := by
  induction m with
  | nil => simp [alGet]
  | cons hd tl ih =>
      obtain ⟨k₀, v₀⟩ := hd
      have ihh : alGet k (tl.filter q) = none :=
        ih (fun v hv => h v (List.mem_cons_of_mem _ hv))
      by_cases hk : k₀ = k
      · subst hk
        have : q (k₀, v₀) = false := h v₀ (List.mem_cons_self _ _)
        simp [List.filter_cons, this, ihh]
      · rcases hq : q (k₀, v₀) with _ | _
        · simp [List.filter_cons, hq, ihh]
        · simp [List.filter_cons, hq, alGet, hk, ihh]

theorem alSet_of_alGet {α : Type} (k : String) (v : α) (m : List (String × α))
    (h : alGet k m = some v) : alSet k v m = m := by
  induction m with
  | nil => simp [alGet] at h
  | cons hd tl ih =>
      obtain ⟨k₀, v₀⟩ := hd
      by_cases hk : k₀ = k
      · simp only [alGet, if_pos hk, Option.some.injEq] at h
        simp [alSet, hk, h]
      · simp only [alGet, if_neg hk] at h
        simp [alSet, hk, ih h]

theorem head_dropWhile_not {α : Type} (p : α → Bool) (l : List α) :
    ∀ x, (l.dropWhile p).head? = some x → p x = false := by
  induction l with
  | nil =>
      intro x h
      simp [List.dropWhile] at h
  | cons c cs ih =>
      intro x h
      by_cases hc : p c
      · rw [List.dropWhile_cons_of_pos hc] at h
        exact ih x h
      · rw [List.dropWhile_cons_of_neg hc] at h
        simp only [List.head?_cons, Option.some.injEq] at h
        subst h
        exact Bool.eq_false_iff.mpr hc

theorem dropWhile_eq_self_of_head {α : Type} (p : α → Bool) (l : List α)
    (h : ∀ x, l.head? = some x → p x = false) : l.dropWhile p = l := by
  cases l with
  | nil => rfl
  | cons c cs => exact List.dropWhile_cons_of_neg (by simp [h c rfl])

theorem dropWhile_idem {α : Type} (p : α → Bool) (l : List α) :
    (l.dropWhile p).dropWhile p = l.dropWhile p :=
  dropWhile_eq_self_of_head p _ (head_dropWhile_not p l)

theorem trimChars_idem (l : List Char) :
    ((((((l.dropWhile isWsChar).reverse.dropWhile isWsChar).reverse).dropWhile
        isWsChar).reverse.dropWhile isWsChar).reverse) =
      ((l.dropWhile isWsChar).reverse.dropWhile isWsChar).reverse := by
  have h1 : (((l.dropWhile isWsChar).reverse.dropWhile isWsChar).reverse).dropWhile isWsChar =
      ((l.dropWhile isWsChar).reverse.dropWhile isWsChar).reverse := by
    apply dropWhile_eq_self_of_head
    intro x hx
    have hsplit : (l.dropWhile isWsChar).reverse =
        (l.dropWhile isWsChar).reverse.takeWhile isWsChar ++
          (l.dropWhile isWsChar).reverse.dropWhile isWsChar :=
      (List.takeWhile_append_dropWhile isWsChar (l.dropWhile isWsChar).reverse).symm
    have hrev : l.dropWhile isWsChar =
        ((l.dropWhile isWsChar).reverse.dropWhile isWsChar).reverse ++
          ((l.dropWhile isWsChar).reverse.takeWhile isWsChar).reverse := by
      conv_lhs => rw [← List.reverse_reverse (l.dropWhile isWsChar), hsplit]
      rw [List.reverse_append]
    have hne : ((l.dropWhile isWsChar).reverse.dropWhile isWsChar).reverse ≠ [] := by
      intro hnil
      rw [hnil] at hx
      simp at hx
    have hhead : (l.dropWhile isWsChar).head? = some x := by
      rw [hrev, List.head?_append_of_ne_nil _ hne, hx]
    exact head_dropWhile_not isWsChar l x hhead
  rw [h1, List.reverse_reverse, dropWhile_idem]

theorem jsTrim_idem (s : String) : jsTrim (jsTrim s) = jsTrim s := by
  unfold jsTrim
  exact congrArg String.mk (trimChars_idem s.toList)

/-! ## Claim C4 -/

/-- C4 counterexample: the claim is false as stated.  `verifyAndCreateSession`
trims its input, so the string `" 123456"`, which is not equal to the stored
code `"123456"`, is nevertheless accepted with `valid = true`. -/
theorem claim4_counterexample :
    (" 123456" : String) ≠ "123456" ∧
    (VerificationManager.verifyAndCreateSession sampleVm (some " 123456") "tok").1.1 = true := by
  constructor
  · decide
  · decide

/-- C4 (amended): a submission whose trimmed form equals the stored code
returns `valid = true` with the freshly minted token, and that token was not
previously issued whenever the fresh random draw is new (the code performs no
freshness check); a submission whose trimmed form differs from the stored
code returns `valid = false`, no token, and leaves the manager unchanged. -/
theorem claim4_verify_amended (vm : VerificationManager) (code freshToken : String) :
    (jsTrim code = vm.verificationCode →
      (vm.verifyAndCreateSession (some code) freshToken).1 = (true, some freshToken) ∧
      (freshToken ∉ vm.verifiedSessions →
        ∀ t, (vm.verifyAndCreateSession (some code) freshToken).1.2 = some t →
          t ∉ vm.verifiedSessions)) ∧
    (jsTrim code ≠ vm.verificationCode →
      vm.verifyAndCreateSession (some code) freshToken = ((false, none), vm)) := by
  constructor
  · intro h
    constructor
    · simp [VerificationManager.verifyAndCreateSession, h]
    · intro hfresh t ht
      simp [VerificationManager.verifyAndCreateSession, h] at ht
      rw [← ht]
      exact hfresh
  · intro h
    simp [VerificationManager.verifyAndCreateSession, h]

/-- C4 witness: the amended theorem applied to a concrete manager, with the
exact code and with a wrong code. -/
theorem claim4_verify_amended_witness :
    (VerificationManager.verifyAndCreateSession sampleVm (some "123456") "tok").1 = (true, some "tok") ∧
    VerificationManager.verifyAndCreateSession sampleVm (some "000000") "tok" = ((false, none), sampleVm) :=
  ⟨((claim4_verify_amended sampleVm "123456" "tok").1 (by decide)).1,
   (claim4_verify_amended sampleVm "000000" "tok").2 (by decide)⟩

/-! ## Claim C8 -/

/-- C8 counterexample: the claim is false as stated.  Starting from a running
server, calling `stopServer()` twice emits `server-stopped` twice in total:
`cleanup()` emits unconditionally and the second call reaches it again. -/
theorem claim8_counterexample :
    BaseHttpServer.countStopped
        (((BaseHttpServer.stopServer ⟨true⟩).getD (⟨false⟩, [])).2) +
      BaseHttpServer.countStopped
        (((BaseHttpServer.stopServer
            (((BaseHttpServer.stopServer ⟨true⟩).getD (⟨false⟩, [])).1)).getD (⟨false⟩, [])).2) = 2 := by
  decide

/-- C8 (amended): `stopServer()` never rejects and each call emits
`server-stopped` exactly once — so two sequential calls emit it twice, not at
most once; `LanReceiver.destroy()` is guarded by the server handle, so a
destroy of a running server followed by a second destroy emits the event
exactly once in total. -/
theorem claim8_stop_amended (st : BaseHttpServer.ServerState) :
    (BaseHttpServer.stopServer st).isSome = true ∧
    (∀ st1 evs1, BaseHttpServer.stopServer st = some (st1, evs1) →
      BaseHttpServer.countStopped evs1 = 1 ∧
      ∀ st2 evs2, BaseHttpServer.stopServer st1 = some (st2, evs2) →
        BaseHttpServer.countStopped evs2 = 1) ∧
    (st.serverRunning = true →
      BaseHttpServer.receiverDestroy st = some (⟨false⟩, [BaseHttpServer.ServerEvent.serverStopped]) ∧
      BaseHttpServer.receiverDestroy ⟨false⟩ = some (⟨false⟩, [])) := by
  have hs : ∀ s : BaseHttpServer.ServerState,
      BaseHttpServer.stopServer s = some (⟨false⟩, [BaseHttpServer.ServerEvent.serverStopped]) := by
    intro s
    simp [BaseHttpServer.stopServer, BaseHttpServer.cleanup]
  refine ⟨?_, ?_, ?_⟩
  · rw [hs st]
    rfl
  · intro st1 evs1 h1
    rw [hs st] at h1
    injection h1 with h1
    injection h1 with h1a h1b
    subst h1a
    subst h1b
    refine ⟨by decide, ?_⟩
    intro st2 evs2 h2
    rw [hs] at h2
    injection h2 with h2
    injection h2 with h2a h2b
    subst h2b
    decide
  · intro hr
    constructor
    · simp [BaseHttpServer.receiverDestroy, hr, hs]
    · simp [BaseHttpServer.receiverDestroy]

/-- C8 witness: the amended theorem applied to a running server. -/
theorem claim8_stop_amended_witness :
    BaseHttpServer.countStopped [BaseHttpServer.ServerEvent.serverStopped] = 1 ∧
    BaseHttpServer.receiverDestroy ⟨true⟩ = some (⟨false⟩, [BaseHttpServer.ServerEvent.serverStopped]) :=
  ⟨(((claim8_stop_amended ⟨true⟩).2.1 ⟨false⟩ [BaseHttpServer.ServerEvent.serverStopped]) (by decide)).1,
   ((claim8_stop_amended ⟨true⟩).2.2 rfl).1⟩

/-! ## Claim C5 -/

/-- C5 counterexample: the claim is false as stated.  A `POST /verify` with
a wrong code is answered with HTTP 200 and `success: false`, not with 403:
`handleVerification` writes status 200 on both branches. -/
theorem claim5_counterexample :
    sampleVm.verificationCode ≠ "000000" ∧
    (LanSender.handleVerification sampleVm
      (LanSender.VerifyBody.parsed (some "000000")) "tok").1.status = 200 ∧
    (LanSender.handleVerification sampleVm
      (LanSender.VerifyBody.parsed (some "000000")) "tok").1.success = false := by
  refine ⟨by decide, by decide, by decide⟩

/-- C5 (amended): an authorized-access failure yields 403 on the two file
paths — a `GET` of a resolvable file without a verified session while
verification is required, and a stage-2 upload whose code does not match the
pending upload's manager — but a `POST /verify` with a wrong code is answered
200 with `success: false` and no session token, the manager unchanged. -/
theorem claim5_auth_amended :
    (∀ (st : LanSender.SenderState) (fileId : String) (token range : Option String)
        (meta : FileMetadata) (filePath : String),
      LanSender.resolveFile st fileId = some (meta, filePath) →
      st.requireVerification = true →
      st.verificationManager.isSessionVerified token = false →
      LanSender.handleGet st fileId token range =
        some (⟨403, none, none⟩,
          [LanSender.SenderEvent.connection, LanSender.SenderEvent.verificationRequired], st)) ∧
    (∀ (st : LanReceiver.ReceiverState) (uid code fh ct : String)
        (parse : LanReceiver.BodyParse) (tok : String) (sha : List Nat → String)
        (ur : LanReceiver.UploadRequest),
      uid ≠ "" → code ≠ "" → fh ≠ "" →
      alGet uid st.pendingUploads = some ur →
      jsTrim code ≠ ur.verificationManager.verificationCode →
      LanReceiver.handleFileUpload st (some uid) (some code) (some fh) ct parse tok sha =
        (⟨403, false, "Invalid verification code"⟩, st)) ∧
    (∀ (vm : VerificationManager) (c tok : String),
      jsTrim c ≠ vm.verificationCode →
      LanSender.handleVerification vm (LanSender.VerifyBody.parsed (some c)) tok =
        (⟨200, false, none⟩, vm)) := by
  refine ⟨?_, ?_, ?_⟩
  · intro st fileId token range meta filePath hres hreq htok
    simp [LanSender.handleGet, hres, hreq, htok]
  · intro st uid code fh ct parse tok sha ur huid hcode hfh hget hbad
    have hur : ({ ur with verificationManager := ur.verificationManager } :
        LanReceiver.UploadRequest) = ur := rfl
    simp [LanReceiver.handleFileUpload, jsTruthy, huid, hcode, hfh, hget,
      VerificationManager.verifyAndCreateSession, hbad, hur,
      alSet_of_alGet uid ur st.pendingUploads hget]
  · intro vm c tok hbad
    have hbad2 : jsTrim (jsTrim c) ≠ vm.verificationCode := by
      rw [jsTrim_idem]
      exact hbad
    simp [LanSender.handleVerification, VerificationManager.verifyAndCreateSession, hbad2]

/-- C5 witness: the amended theorem applied to a concrete sender without a
session token, a concrete receiver with a wrong code, and a concrete
`/verify` submission with a wrong code. -/
theorem claim5_auth_amended_witness :
    LanSender.handleGet sampleSender "fid" none none =
      some (⟨403, none, none⟩,
        [LanSender.SenderEvent.connection, LanSender.SenderEvent.verificationRequired],
        sampleSender) ∧
    LanReceiver.handleFileUpload sampleReceiver (some "id1") (some "000000") (some "h")
        "x" LanReceiver.BodyParse.noFile "tok" sampleSha =
      (⟨403, false, "Invalid verification code"⟩, sampleReceiver) ∧
    LanSender.handleVerification sampleVm (LanSender.VerifyBody.parsed (some "000000")) "t" =
      (⟨200, false, none⟩, sampleVm) :=
  ⟨claim5_auth_amended.1 sampleSender "fid" none none sampleMeta "f.bin"
      (by decide) rfl (by decide),
   claim5_auth_amended.2.1 sampleReceiver "id1" "000000" "h" "x"
      LanReceiver.BodyParse.noFile "tok" sampleSha sampleUr
      (by decide) (by decide) (by decide) (by decide) (by decide),
   claim5_auth_amended.2.2 sampleVm "000000" "t" (by decide)⟩

/-! ## Claim C9 -/

/-- C9 counterexample: the claim is false as stated of the core Discovery
component.  `LanDiscovery` stores records under the service id, not under
`host:port`: an up-event for `h1:1` creates no `"h1:1"` key, and a later
up-event from the distinct pair `h2:2` that reuses the same id replaces the
`h1:1` record instead of leaving it unchanged. -/
theorem claim9_counterexample :
    LanDiscovery.onServiceUp [] svcA = [("x", siA)] ∧
    alGet "h1:1" (LanDiscovery.onServiceUp [] svcA) = none ∧
    LanDiscovery.onServiceUp (LanDiscovery.onServiceUp [] svcA) svcB = [("x", siB)] ∧
    siA.host ≠ siB.host := by
  decide

/-- C9 (amended): the `host:port` identity belongs to the CLI's
`DeviceDiscoveryService` device map: its up-handler stores a role-matching
service under `host:port` leaving every other key unchanged, and its
down-handler removes exactly that key; the core `LanDiscovery` map instead
keys records by the parsed service id. -/
theorem claim9_discovery_amended (mode : DeviceDiscoveryService.Mode)
    (m : List (String × ServiceInfo)) (service : ServiceInfo)
    (svcRaw : LanDiscovery.BonjourService) (si : ServiceInfo) :
    ((mode = DeviceDiscoveryService.Mode.send → alGet "role" service.txt = some "receiver") →
      (mode = DeviceDiscoveryService.Mode.receive → alGet "role" service.txt = some "sender") →
      alGet (DeviceDiscoveryService.serviceKey service)
          (DeviceDiscoveryService.onDeviceUp mode m service) = some service ∧
      ∀ k, k ≠ DeviceDiscoveryService.serviceKey service →
        alGet k (DeviceDiscoveryService.onDeviceUp mode m service) = alGet k m) ∧
    (alGet (DeviceDiscoveryService.serviceKey service)
        (DeviceDiscoveryService.onDeviceDown m service) = none ∧
      ∀ k, k ≠ DeviceDiscoveryService.serviceKey service →
        alGet k (DeviceDiscoveryService.onDeviceDown m service) = alGet k m) ∧
    (LanDiscovery.parseService svcRaw = some si →
      alGet si.id (LanDiscovery.onServiceUp m svcRaw) = some si) := by
  refine ⟨?_, ⟨?_, ?_⟩, ?_⟩
  · intro hsend hreceive
    have hup : DeviceDiscoveryService.onDeviceUp mode m service =
        alSet (DeviceDiscoveryService.serviceKey service) service m := by
      cases mode with
      | send => simp [DeviceDiscoveryService.onDeviceUp, hsend rfl]
      | receive => simp [DeviceDiscoveryService.onDeviceUp, hreceive rfl]
    rw [hup]
    exact ⟨alGet_alSet_self _ _ _,
      fun k hk => alGet_alSet_ne _ _ _ _ (fun h => hk h.symm)⟩
  · by_cases hp : (alGet (DeviceDiscoveryService.serviceKey service) m).isSome
    · simp [DeviceDiscoveryService.onDeviceDown, hp, alGet_alDelete_self]
    · have hnone : alGet (DeviceDiscoveryService.serviceKey service) m = none :=
        Option.not_isSome_iff_eq_none.mp hp
      simp [DeviceDiscoveryService.onDeviceDown, hp, hnone]
  · intro k hk
    by_cases hp : (alGet (DeviceDiscoveryService.serviceKey service) m).isSome
    · simp [DeviceDiscoveryService.onDeviceDown, hp,
        alGet_alDelete_ne _ _ _ (fun h => hk h.symm)]
    · simp [DeviceDiscoveryService.onDeviceDown, hp]
  · intro hp
    simp [LanDiscovery.onServiceUp, hp, alGet_alSet_self]

/-- Shared helper: a stage-2 upload whose id is not among the pending
uploads is answered 404 with the state untouched. -/
theorem handleFileUpload_not_found (st : LanReceiver.ReceiverState)
    (uid code fh ct : String) (parse : LanReceiver.BodyParse) (tok : String)
    (sha : List Nat → String) (huid : uid ≠ "") (hcode : code ≠ "") (hfh : fh ≠ "")
    (hget : alGet uid st.pendingUploads = none) :
    LanReceiver.handleFileUpload st (some uid) (some code) (some fh) ct parse tok sha =
      (⟨404, false, "Upload request not found or expired"⟩, st) := by
  simp [LanReceiver.handleFileUpload, jsTruthy, huid, hcode, hfh, hget]

/-- Shared helper: after a successful stage-1 request, every entry of the
previous state that was created more than five minutes before `now` and never
verified has been garbage-collected. -/
theorem handleUploadRequest1_cleanup (st : LanReceiver.ReceiverState)
    (filename : String) (size : Int) (hash : String) (ca ma : Option Int)
    (now : Int) (newId : String) (fvm : VerificationManager) (k : String)
    (hfn : filename ≠ "") (hsz : size ≠ 0) (hh : hash ≠ "")
    (hquota : ¬(0 < st.maxUploads ∧ st.maxUploads ≤ st.uploadCount))
    (hk : k ≠ newId)
    (hexp : ∀ v, (k, v) ∈ st.pendingUploads →
      v.timestamp < now - 5 * 60 * 1000 ∧ v.verified = false) :
    alGet k (LanReceiver.handleUploadRequest1 st
      (LanReceiver.Stage1Body.parsed (some filename) (some size) (some hash) ca ma)
      now newId fvm).2.pendingUploads = none := by
  have hq : (decide (0 < st.maxUploads) && decide (st.maxUploads ≤ st.uploadCount)) = false := by
    rcases Nat.lt_or_ge st.uploadCount st.maxUploads with hlt | hge
    · simp [Nat.not_le.mpr hlt]
    · have : ¬(0 < st.maxUploads) := fun hpos => hquota ⟨hpos, hge⟩
      simp [this]
  simp only [LanReceiver.handleUploadRequest1, jsTruthy, jsTruthyNum, hfn, hsz, hh, hq,
    Bool.not_false, Bool.false_or, Bool.or_false, Bool.or_self, decide_False,
    Bool.not_true, if_neg, ite_false, ite_true]
  refine alGet_filter_none _ k _ ?_
  intro v hv
  have hvmem := mem_alSet_ne newId _ k v st.pendingUploads hv hk
  obtain ⟨ht, hverified⟩ := hexp v hvmem
  have ht' : v.timestamp < now - 300000 := by omega
  simp [ht', hverified]

/-- C9 witness: the amended theorem applied to a concrete role-matching
service and to the concrete service `svcA`. -/
theorem claim9_discovery_amended_witness :
    alGet (DeviceDiscoveryService.serviceKey sampleRoleSvc)
        (DeviceDiscoveryService.onDeviceUp DeviceDiscoveryService.Mode.receive [] sampleRoleSvc) =
      some sampleRoleSvc ∧
    alGet (DeviceDiscoveryService.serviceKey sampleRoleSvc)
        (DeviceDiscoveryService.onDeviceDown
          [(DeviceDiscoveryService.serviceKey sampleRoleSvc, sampleRoleSvc)] sampleRoleSvc) = none ∧
    alGet "x" (LanDiscovery.onServiceUp [] svcA) = some siA :=
  ⟨((claim9_discovery_amended DeviceDiscoveryService.Mode.receive [] sampleRoleSvc svcA siA).1
      (by decide) (by decide)).1,
   ((claim9_discovery_amended DeviceDiscoveryService.Mode.receive
      [(DeviceDiscoveryService.serviceKey sampleRoleSvc, sampleRoleSvc)] sampleRoleSvc svcA siA).2.1).1,
   (claim9_discovery_amended DeviceDiscoveryService.Mode.receive [] sampleRoleSvc svcA siA).2.2
      (by decide)⟩

/-! ## Claim C2 -/

/-- Shared helper: an authorized request while the quota is exhausted is
answered 429 with only the `connection` event and an unchanged state. -/
theorem handleGet_quota (st : LanSender.SenderState) (r : LanSender.GetReq)
    (h : LanSender.authorizedReq st r)
    (h1 : 0 < st.maxDownloads) (h2 : st.maxDownloads ≤ st.downloadCount) :
    LanSender.handleGet st r.fileId r.token r.range =
      some (⟨429, none, none⟩, [LanSender.SenderEvent.connection], st) := by
  obtain ⟨⟨meta, filePath, hres, size, hdisk⟩, hauth⟩ := h
  have hver : (st.requireVerification &&
      !(st.verificationManager.isSessionVerified r.token)) = false := by
    rcases hrv : st.requireVerification
    · simp
    · simp [hauth hrv]
  simp [LanSender.handleGet, hres, hver, h1, h2]

/-- Shared helper: an authorized request whose download completes, made
under the quota, is served (206 with a `Range` header, 200 otherwise),
emits exactly one `transfer-completed`, increments the download counter,
and emits `download-limit-reached` exactly when the incremented counter
reaches a positive quota. -/
theorem handleGet_serve (st : LanSender.SenderState) (r : LanSender.GetReq)
    (h : LanSender.servableReq st r)
    (hq : (decide (0 < st.maxDownloads) && decide (st.maxDownloads ≤ st.downloadCount)) = false) :
    ∃ resp evs,
      LanSender.handleGet st r.fileId r.token r.range =
        some (resp, evs, { st with downloadCount := st.downloadCount + 1 }) ∧
      (resp.status = 206 ∨ resp.status = 200) ∧
      LanSender.countCompleted evs = 1 ∧
      LanSender.countLimit evs =
        (if (decide (0 < st.maxDownloads) &&
            decide (st.maxDownloads ≤ st.downloadCount + 1)) = true then 1 else 0) ∧
      ((decide (0 < st.maxDownloads) &&
          decide (st.maxDownloads ≤ st.downloadCount + 1)) = true →
        LanSender.SenderEvent.downloadLimitReached (st.downloadCount + 1) ∈ evs) := by
  obtain ⟨meta, filePath, fileSize, hres, hdisk, hauth, hcomp⟩ := h
  have hver : (st.requireVerification &&
      !(st.verificationManager.isSessionVerified r.token)) = false := by
    rcases hrv : st.requireVerification
    · simp
    · simp [hauth hrv]
  rcases hrange : r.range with _ | rstr
  all_goals rw [hrange] at hcomp
  · rcases hlim : (decide (0 < st.maxDownloads) &&
        decide (st.maxDownloads ≤ st.downloadCount + 1)) with _ | _ <;>
      simp [LanSender.handleGet, hres, hver, hq, hdisk, hlim]
    · exact ⟨_, _, ⟨rfl, rfl⟩, Or.inr rfl, by simp [LanSender.countCompleted],
        by simp [LanSender.countLimit]⟩
    · exact ⟨_, _, ⟨rfl, rfl⟩, Or.inr rfl, by simp [LanSender.countCompleted],
        by simp [LanSender.countLimit], by simp⟩
  · have hso : LanSender.streamOk (LanSender.rangeBounds rstr fileSize) = true := hcomp
    rcases hlim : (decide (0 < st.maxDownloads) &&
        decide (st.maxDownloads ≤ st.downloadCount + 1)) with _ | _ <;>
      simp [LanSender.handleGet, hres, hver, hq, hdisk, hlim, hso]
    · exact ⟨_, _, ⟨rfl, rfl⟩, Or.inl rfl, by simp [LanSender.countCompleted],
        by simp [LanSender.countLimit]⟩
    · exact ⟨_, _, ⟨rfl, rfl⟩, Or.inl rfl, by simp [LanSender.countCompleted],
        by simp [LanSender.countLimit], by simp⟩

/-- Shared helper: the download-count field does not matter to request
authorization. -/
theorem authorizedReq_downloadCount (files : List (String × FileMetadata))
    (vm : VerificationManager) (dc dc' md : Nat) (rv : Bool)
    (disk : List (String × Int)) (r : LanSender.GetReq) :
    LanSender.authorizedReq ⟨files, vm, dc, md, rv, disk⟩ r ↔
      LanSender.authorizedReq ⟨files, vm, dc', md, rv, disk⟩ r := Iff.rfl

/-- Shared helper: neither does it matter to whether a download completes. -/
theorem servableReq_downloadCount (files : List (String × FileMetadata))
    (vm : VerificationManager) (dc dc' md : Nat) (rv : Bool)
    (disk : List (String × Int)) (r : LanSender.GetReq) :
    LanSender.servableReq ⟨files, vm, dc, md, rv, disk⟩ r ↔
      LanSender.servableReq ⟨files, vm, dc', md, rv, disk⟩ r := Iff.rfl

/-- Shared helper: once the quota is exhausted every further authorized
request in a run is answered 429 with no further events or state change. -/
theorem runGets_quota (st : LanSender.SenderState) (reqs : List LanSender.GetReq)
    (h1 : 0 < st.maxDownloads) (h2 : st.maxDownloads ≤ st.downloadCount)
    (hall : ∀ r ∈ reqs, LanSender.authorizedReq st r) :
    LanSender.runGets st reqs =
      some (reqs.map (fun _ => (⟨429, none, none⟩, [LanSender.SenderEvent.connection])), st) := by
  induction reqs with
  | nil => rfl
  | cons r rest ih =>
      have hr := handleGet_quota st r (hall r (List.mem_cons_self _ _)) h1 h2
      have htail := ih (fun q hq => hall q (List.mem_cons_of_mem _ hq))
      simp [LanSender.runGets, hr, htail]

/-- C2: with `maxDownloads = 2` and no downloads yet, a sequential run of
authorized requests whose first two downloads complete serves those two
(emitting one `transfer-completed` each), emits `download-limit-reached`
exactly once — upon completion of the second download — and answers every
later authorized request 429 with no `transfer-completed`. -/
theorem claim2_download_quota (st : LanSender.SenderState) (r1 r2 : LanSender.GetReq)
    (rest : List LanSender.GetReq)
    (hmax : st.maxDownloads = 2) (hcount : st.downloadCount = 0)
    (h1 : LanSender.servableReq st r1) (h2 : LanSender.servableReq st r2)
    (hrest : ∀ r ∈ rest, LanSender.authorizedReq st r) :
    ∃ p1 p2 out stf,
      LanSender.runGets st (r1 :: r2 :: rest) = some (p1 :: p2 :: out, stf) ∧
      (p1.1.status = 206 ∨ p1.1.status = 200) ∧
      LanSender.countCompleted p1.2 = 1 ∧
      LanSender.countLimit p1.2 = 0 ∧
      (p2.1.status = 206 ∨ p2.1.status = 200) ∧
      LanSender.countCompleted p2.2 = 1 ∧
      LanSender.countLimit p2.2 = 1 ∧
      LanSender.SenderEvent.downloadLimitReached 2 ∈ p2.2 ∧
      (∀ p ∈ out, p.1 = ⟨429, none, none⟩ ∧
        p.2 = [LanSender.SenderEvent.connection] ∧ LanSender.countCompleted p.2 = 0) ∧
      stf.downloadCount = 2 := by
  obtain ⟨files, vm, dc, md, rv, disk⟩ := st
  have hmax' : md = 2 := hmax
  have hcount' : dc = 0 := hcount
  subst hmax'
  subst hcount'
  obtain ⟨resp1, evs1, heq1, hst1, hc1, hl1, -⟩ :=
    handleGet_serve ⟨files, vm, 0, 2, rv, disk⟩ r1 h1 (by simp)
  obtain ⟨resp2, evs2, heq2, hst2, hc2, hl2, hmem2⟩ :=
    handleGet_serve ⟨files, vm, 0 + 1, 2, rv, disk⟩ r2
      ((servableReq_downloadCount files vm 0 (0 + 1) 2 rv disk r2).mp h2)
      (by simp)
  have htail := runGets_quota ⟨files, vm, 0 + 1 + 1, 2, rv, disk⟩ rest
    (by simp) (by simp)
    (fun q hq =>
      (authorizedReq_downloadCount files vm 0 (0 + 1 + 1) 2 rv disk q).mp (hrest q hq))
  refine ⟨(resp1, evs1), (resp2, evs2),
    rest.map (fun _ => (⟨429, none, none⟩, [LanSender.SenderEvent.connection])),
    ⟨files, vm, 0 + 1 + 1, 2, rv, disk⟩, ?_, hst1, hc1, ?_, hst2, hc2, ?_, ?_, ?_, rfl⟩
  · simp [LanSender.runGets, heq1, heq2, htail]
  · simpa using hl1
  · simpa using hl2
  · simpa using hmem2 (by simp)
  · intro p hp
    rcases List.mem_map.mp hp with ⟨q, -, hq⟩
    subst hq
    exact ⟨rfl, rfl, rfl⟩

/-- C2 witness: the theorem applied to a concrete sender with
`maxDownloads = 2` and three identical authorized requests. -/
theorem claim2_download_quota_witness :
    ∃ p1 p2 out stf,
      LanSender.runGets sampleSender [sampleReq, sampleReq, sampleReq] =
        some (p1 :: p2 :: out, stf) ∧
      (p1.1.status = 206 ∨ p1.1.status = 200) ∧
      LanSender.countCompleted p1.2 = 1 ∧
      LanSender.countLimit p1.2 = 0 ∧
      (p2.1.status = 206 ∨ p2.1.status = 200) ∧
      LanSender.countCompleted p2.2 = 1 ∧
      LanSender.countLimit p2.2 = 1 ∧
      LanSender.SenderEvent.downloadLimitReached 2 ∈ p2.2 ∧
      (∀ p ∈ out, p.1 = ⟨429, none, none⟩ ∧
        p.2 = [LanSender.SenderEvent.connection] ∧ LanSender.countCompleted p.2 = 0) ∧
      stf.downloadCount = 2 :=
  claim2_download_quota sampleSender sampleReq sampleReq [sampleReq] rfl rfl
    ⟨sampleMeta, "f.bin", 10, by decide, by decide, fun _ => by decide, trivial⟩
    ⟨sampleMeta, "f.bin", 10, by decide, by decide, fun _ => by decide, trivial⟩
    (fun r hr => by
      have hreq : r = sampleReq := by simpa using hr
      subst hreq
      exact ⟨⟨sampleMeta, "f.bin", by decide, 10, by decide⟩, fun _ => by decide⟩)

/-! ## Claim C10 -/

/-- C10: on the serving path, any `Range` header at all — the handler never
calls `parseRange` here — is answered 206 with start taken as the integer
parse of the text before the dash and end as the parse of the text after it
(or `size - 1` when absent), with no validation of the bounds before the
status line is written; in particular a header `parseRange` rejects is still
answered 206 rather than an error status.  (Whether the stream then runs or
`fs.createReadStream` throws, the committed status and `Content-Range` are
the same.) -/
theorem claim10_range_serving (st : LanSender.SenderState) (fileId : String)
    (token : Option String) (r : String) (meta : FileMetadata) (filePath : String)
    (fileSize : Int)
    (hres : LanSender.resolveFile st fileId = some (meta, filePath))
    (hauth : st.requireVerification = true →
      st.verificationManager.isSessionVerified token = true)
    (hq : (decide (0 < st.maxDownloads) && decide (st.maxDownloads ≤ st.downloadCount)) = false)
    (hdisk : alGet filePath st.disk = some fileSize) :
    (∃ evs st',
      LanSender.handleGet st fileId token (some r) =
        some (⟨206, (LanSender.rangeBounds r fileSize).1,
          (LanSender.rangeBounds r fileSize).2⟩, evs, st')) ∧
    (parseRange r fileSize = none →
      ∃ resp evs st', LanSender.handleGet st fileId token (some r) = some (resp, evs, st') ∧
        resp.status = 206) := by
  have hver : (st.requireVerification &&
      !(st.verificationManager.isSessionVerified token)) = false := by
    rcases hrv : st.requireVerification
    · simp
    · simp [hauth hrv]
  rcases hso : LanSender.streamOk (LanSender.rangeBounds r fileSize) with _ | _
  · have heq : LanSender.handleGet st fileId token (some r) =
        some (⟨206, (LanSender.rangeBounds r fileSize).1,
          (LanSender.rangeBounds r fileSize).2⟩, [LanSender.SenderEvent.connection], st) := by
      simp [LanSender.handleGet, hres, hver, hq, hdisk, hso]
    exact ⟨⟨_, _, heq⟩, fun _ => ⟨_, _, _, heq, rfl⟩⟩
  · have heq : LanSender.handleGet st fileId token (some r) =
        some (⟨206, (LanSender.rangeBounds r fileSize).1,
          (LanSender.rangeBounds r fileSize).2⟩,
          [LanSender.SenderEvent.connection, LanSender.SenderEvent.transferStarted,
            LanSender.SenderEvent.transferCompleted (st.downloadCount + 1)] ++
            (if (decide (0 < st.maxDownloads) &&
                decide (st.maxDownloads ≤ st.downloadCount + 1)) = true then
              [LanSender.SenderEvent.downloadLimitReached (st.downloadCount + 1)]
            else []),
          { st with downloadCount := st.downloadCount + 1 }) := by
      simp [LanSender.handleGet, hres, hver, hq, hdisk, hso]
    exact ⟨⟨_, _, heq⟩, fun _ => ⟨_, _, _, heq, rfl⟩⟩

/-- C10 witness: the header `bytes=500-400`, which `parseRange` rejects, is
still answered 206 on a concrete sender, with start 500 and end 400 taken
verbatim from the header. -/
theorem claim10_range_serving_witness :
    parseRange "bytes=500-400" 10 = none ∧
    (∃ evs st',
      LanSender.handleGet sampleSender "fid" (some "tok") (some "bytes=500-400") =
        some (⟨206, some 500, some 400⟩, evs, st')) := by
  constructor
  · decide
  · obtain ⟨evs, st', heq⟩ :=
      (claim10_range_serving sampleSender "fid" (some "tok") "bytes=500-400" sampleMeta
        "f.bin" 10 (by decide) (fun _ => by decide) (by decide) (by decide)).1
    have h1 : (LanSender.rangeBounds "bytes=500-400" 10).1 = some 500 := by decide
    have h2 : (LanSender.rangeBounds "bytes=500-400" 10).2 = some 400 := by decide
    refine ⟨evs, st', ?_⟩
    rw [heq, h1, h2]

/-! ## Claim C3 -/

theorem splitOnDash_no_dash : ∀ l : List Char, '-' ∉ l → splitOnDash l = [l] := by
  intro l
  induction l with
  | nil => intro _; rfl
  | cons c cs ih =>
      intro h
      have hc : ¬(c = '-') := fun hc => h (hc ▸ List.mem_cons_self _ _)
      have hcs : '-' ∉ cs := fun hm => h (List.mem_cons_of_mem _ hm)
      simp [splitOnDash, hc, ih hcs]

theorem splitOnDash_append (s e : List Char) (hs : '-' ∉ s) :
    splitOnDash (s ++ '-' :: e) = s :: splitOnDash e := by
  induction s with
  | nil => simp [splitOnDash]
  | cons c cs ih =>
      have hc : ¬(c = '-') := fun hc => hs (hc ▸ List.mem_cons_self _ _)
      have hcs : '-' ∉ cs := fun hm => hs (List.mem_cons_of_mem _ hm)
      simp [splitOnDash, hc, ih hcs]

theorem digit_not_ws (c : Char) (h : c.isDigit = true) : isWsChar c = false := by
  rcases hc : isWsChar c with _ | _
  · rfl
  · exfalso
    simp only [isWsChar, Bool.or_eq_true, decide_eq_true_eq] at hc
    rcases hc with ((h1 | h1) | h1) | h1 <;> subst h1 <;> exact absurd h (by decide)

theorem digit_ne_sign (c : Char) (h : c.isDigit = true) : c ≠ '-' ∧ c ≠ '+' := by
  constructor <;> intro h1 <;> subst h1 <;> exact absurd h (by decide)

theorem takeWhile_eq_self {α : Type} (p : α → Bool) :
    ∀ l : List α, (∀ x ∈ l, p x = true) → l.takeWhile p = l := by
  intro l
  induction l with
  | nil => intro _; rfl
  | cons c cs ih =>
      intro h
      have hc := h c (List.mem_cons_self _ _)
      simp [List.takeWhile_cons, hc, ih (fun x hx => h x (List.mem_cons_of_mem _ hx))]

theorem jsParseIntL_digits (l : List Char) (h0 : l ≠ [])
    (h : ∀ c ∈ l, c.isDigit = true) : jsParseIntL l = some ((digitsVal l : Int)) := by
  obtain ⟨c, cs, rfl⟩ := List.exists_cons_of_ne_nil h0
  have hcd := h c (List.mem_cons_self _ _)
  have hws : isWsChar c = false := digit_not_ws c hcd
  have hdrop : (c :: cs).dropWhile isWsChar = c :: cs :=
    List.dropWhile_cons_of_neg (by simp [hws])
  have hdash := (digit_ne_sign c hcd).1
  have hplus := (digit_ne_sign c hcd).2
  have htake : (c :: cs).takeWhile Char.isDigit = c :: cs := takeWhile_eq_self _ _ h
  simp only [jsParseIntL, hdrop]
  split
  · rename_i heq
    exact absurd (List.head_eq_of_cons_eq heq) hdash
  · rename_i heq
    exact absurd (List.head_eq_of_cons_eq heq) hplus
  · rw [htake]
    simp [h0]

/-- C3: `parseRange` meets its four concrete test cases, and in general a
well-formed `bytes=start-end` (or open-ended `bytes=start-`) header made of
digit strings yields `null` whenever the start is at or past the total size
or exceeds the end. -/
theorem claim3_parseRange :
    (parseRange "bytes=0-499" 1000 = some ⟨0, 499⟩ ∧
     parseRange "bytes=-100" 1000 = some ⟨900, 999⟩ ∧
     parseRange "bytes=500-400" 1000 = none ∧
     parseRange "bytes=1000-" 1000 = none) ∧
    (∀ (s e : List Char) (total : Int),
      s ≠ [] → e ≠ [] →
      (∀ c ∈ s, c.isDigit = true) → (∀ c ∈ e, c.isDigit = true) →
      (total ≤ (digitsVal s : Int) ∨ (digitsVal e : Int) < (digitsVal s : Int)) →
      parseRange (String.mk ('b' :: 'y' :: 't' :: 'e' :: 's' :: '=' :: (s ++ '-' :: e)))
        total = none) ∧
    (∀ (s : List Char) (total : Int),
      s ≠ [] → (∀ c ∈ s, c.isDigit = true) →
      total ≤ (digitsVal s : Int) →
      parseRange (String.mk ('b' :: 'y' :: 't' :: 'e' :: 's' :: '=' :: (s ++ ['-'])))
        total = none) := by
  refine ⟨⟨by decide, by decide, by decide, by decide⟩, ?_, ?_⟩
  · intro s e total hs he hds hde hcond
    have hdashS : '-' ∉ s := fun hm => absurd (hds '-' hm) (by decide)
    have hdashE : '-' ∉ e := fun hm => absurd (hde '-' hm) (by decide)
    show parseRangeValue (s ++ '-' :: e) total = none
    have hsplit : splitOnDash (s ++ '-' :: e) = [s, e] := by
      rw [splitOnDash_append s e hdashS, splitOnDash_no_dash e hdashE]
    have hrv : (s ++ '-' :: e).isEmpty = false := by
      cases s <;> rfl
    have hestr : (String.mk e = "") = False := by
      simp only [eq_iff_iff, iff_false]
      exact fun hh => he (congrArg String.data hh)
    rcases hcond with hcond | hcond <;>
      simp [parseRangeValue, hrv, hsplit, jsParseIntL_digits s hs hds,
        jsParseIntL_digits e he hde, jsTruthy, hestr, hs, hcond]
  · intro s total hs hds hcond
    have hdashS : '-' ∉ s := fun hm => absurd (hds '-' hm) (by decide)
    show parseRangeValue (s ++ ['-']) total = none
    have hsplit : splitOnDash (s ++ ['-']) = [s, []] := by
      rw [splitOnDash_append s [] hdashS]
      rfl
    have hrv : (s ++ ['-']).isEmpty = false := by
      cases s <;> rfl
    simp [parseRangeValue, hrv, hsplit, jsParseIntL_digits s hs hds, jsTruthy, hs, hcond]

/-- C3 witness: the general parts of the theorem applied to the concrete
headers `bytes=5-4` at size 3 and `bytes=9-` at size 5. -/
theorem claim3_parseRange_witness :
    parseRange (String.mk ('b' :: 'y' :: 't' :: 'e' :: 's' :: '=' :: (['5'] ++ '-' :: ['4'])))
      3 = none ∧
    parseRange (String.mk ('b' :: 'y' :: 't' :: 'e' :: 's' :: '=' :: (['9'] ++ ['-'])))
      5 = none :=
  ⟨claim3_parseRange.2.1 ['5'] ['4'] 3 (by decide) (by decide) (by decide) (by decide)
      (Or.inl (by decide)),
   claim3_parseRange.2.2 ['9'] 5 (by decide) (by decide) (by decide)⟩

/-! ## Claim C1 -/

/-- C1: upload integrity.  For a stage-2 upload that reaches the hash checks
(headers present, pending upload found, code accepted): if the declared
`X-File-Hash` differs from the stage-1 hash the response is 400 and nothing
is written to disk and `uploadCount` is unchanged; and if the hash
recomputed from the bytes written to disk differs from the declared (equal
stage-1) hash, the response is 400, the written file is deleted and
`uploadCount` is unchanged. -/
theorem claim1_upload_integrity (st : LanReceiver.ReceiverState)
    (uid code fh ct tok : String) (sha : List Nat → String)
    (ur : LanReceiver.UploadRequest)
    (huid : uid ≠ "") (hcode : code ≠ "") (hfh : fh ≠ "")
    (hget : alGet uid st.pendingUploads = some ur)
    (hgood : jsTrim code = ur.verificationManager.verificationCode) :
    (∀ parse : LanReceiver.BodyParse, ur.hash ≠ fh →
      (LanReceiver.handleFileUpload st (some uid) (some code) (some fh) ct parse tok sha).1 =
        ⟨400, false, "File hash does not match initial request"⟩ ∧
      (LanReceiver.handleFileUpload st (some uid) (some code) (some fh) ct parse tok sha).2.disk =
        st.disk ∧
      (LanReceiver.handleFileUpload st (some uid) (some code) (some fh) ct parse tok
        sha).2.uploadCount = st.uploadCount) ∧
    (∀ (filename fileCt : String) (data : List Nat) (b : String),
      ur.hash = fh →
      listIncludes "multipart/form-data".toList ct.toList = true →
      LanReceiver.extractBoundary ct = some b →
      filename ≠ "" →
      sha data ≠ ur.hash →
      (LanReceiver.handleFileUpload st (some uid) (some code) (some fh) ct
          (LanReceiver.BodyParse.fileFound filename fileCt data) tok sha).1 =
        ⟨400, false, "File integrity check failed"⟩ ∧
      alGet (st.uploadDir ++ "/" ++ ur.filename)
        (LanReceiver.handleFileUpload st (some uid) (some code) (some fh) ct
          (LanReceiver.BodyParse.fileFound filename fileCt data) tok sha).2.disk = none ∧
      (LanReceiver.handleFileUpload st (some uid) (some code) (some fh) ct
        (LanReceiver.BodyParse.fileFound filename fileCt data) tok
        sha).2.uploadCount = st.uploadCount) := by
  constructor
  · intro parse hbad
    have hbad' : ¬(ur.hash = fh) := hbad
    simp [LanReceiver.handleFileUpload, jsTruthy, huid, hcode, hfh, hget,
      VerificationManager.verifyAndCreateSession, hgood, hbad']
  · intro filename fileCt data b hhash hct hb hfn hsha
    have hsha' : ¬(sha data = fh) := by
      rw [← hhash]
      exact hsha
    simp_all [LanReceiver.handleFileUpload, jsTruthy, huid, hcode, hfh, hget,
      VerificationManager.verifyAndCreateSession, hgood,
      alGet_alSet_self, alGet_alDelete_self]

/-- C1 witness: the theorem applied to a concrete receiver, once with a
mismatching declared hash and once with corrupted bytes. -/
theorem claim1_upload_integrity_witness :
    ((LanReceiver.handleFileUpload sampleReceiver (some "id1") (some "123456") (some "zz")
        "x" LanReceiver.BodyParse.noFile "tok" sampleSha).1 =
      ⟨400, false, "File hash does not match initial request"⟩ ∧
     (LanReceiver.handleFileUpload sampleReceiver (some "id1") (some "123456") (some "zz")
        "x" LanReceiver.BodyParse.noFile "tok" sampleSha).2.disk = sampleReceiver.disk ∧
     (LanReceiver.handleFileUpload sampleReceiver (some "id1") (some "123456") (some "zz")
        "x" LanReceiver.BodyParse.noFile "tok" sampleSha).2.uploadCount =
       sampleReceiver.uploadCount) ∧
    ((LanReceiver.handleFileUpload sampleReceiver (some "id1") (some "123456") (some "h")
        "multipart/form-data; boundary=X"
        (LanReceiver.BodyParse.fileFound "f.txt" "a" [9]) "tok" sampleSha).1 =
      ⟨400, false, "File integrity check failed"⟩ ∧
     alGet (sampleReceiver.uploadDir ++ "/" ++ sampleUr.filename)
       (LanReceiver.handleFileUpload sampleReceiver (some "id1") (some "123456") (some "h")
        "multipart/form-data; boundary=X"
        (LanReceiver.BodyParse.fileFound "f.txt" "a" [9]) "tok" sampleSha).2.disk = none ∧
     (LanReceiver.handleFileUpload sampleReceiver (some "id1") (some "123456") (some "h")
        "multipart/form-data; boundary=X"
        (LanReceiver.BodyParse.fileFound "f.txt" "a" [9]) "tok"
        sampleSha).2.uploadCount = sampleReceiver.uploadCount) :=
  ⟨(claim1_upload_integrity sampleReceiver "id1" "123456" "zz" "x" "tok" sampleSha sampleUr
      (by decide) (by decide) (by decide) (by decide) (by decide)).1
      LanReceiver.BodyParse.noFile (by decide),
   (claim1_upload_integrity sampleReceiver "id1" "123456" "h"
      "multipart/form-data; boundary=X" "tok" sampleSha sampleUr
      (by decide) (by decide) (by decide) (by decide) (by decide)).2
      "f.txt" "a" [9] "X" (by decide) (by decide) (by decide) (by decide) (by decide)⟩

/-! ## Claim C6 -/

/-- C6 counterexample: the claim is false as stated.  Stage 2 performs no
expiry check of its own: a pending upload created at time 0 and never
verified — expired at any `now` past five minutes — is still found an hour
later and, with the right code and hash, the upload succeeds with 200
instead of being answered 404. -/
theorem claim6_counterexample :
    sampleUr.timestamp = 0 ∧ sampleUr.verified = false ∧
    (0 : Int) < 3600000 - 5 * 60 * 1000 ∧
    (LanReceiver.handleFileUpload sampleReceiver (some "id1") (some "123456") (some "h")
      "multipart/form-data; boundary=X"
      (LanReceiver.BodyParse.fileFound "f.txt" "a" [1, 2, 3]) "tok" sampleSha).1 =
      ⟨200, true, "Upload successful"⟩ := by
  refine ⟨rfl, rfl, by decide, by decide⟩

/-- C6 (amended): a stage-2 upload whose `X-Upload-Id` names no stored
pending upload is answered 404 and no file is written; expired entries are
removed only by the opportunistic cleanup a later successful stage-1 request
runs, after which a stage-2 upload naming them is indeed answered 404 — but
an expired entry that no stage-1 request has cleaned up yet is still
accepted. -/
theorem claim6_upload_lookup_amended (st : LanReceiver.ReceiverState)
    (uid code fh ct : String) (parse : LanReceiver.BodyParse) (tok : String)
    (sha : List Nat → String)
    (filename : String) (size : Int) (hash : String) (ca ma : Option Int)
    (now : Int) (newId : String) (fvm : VerificationManager)
    (huid : uid ≠ "") (hcode : code ≠ "") (hfh : fh ≠ "") :
    (alGet uid st.pendingUploads = none →
      LanReceiver.handleFileUpload st (some uid) (some code) (some fh) ct parse tok sha =
        (⟨404, false, "Upload request not found or expired"⟩, st)) ∧
    (filename ≠ "" → size ≠ 0 → hash ≠ "" →
      ¬(0 < st.maxUploads ∧ st.maxUploads ≤ st.uploadCount) →
      uid ≠ newId →
      (∀ v, (uid, v) ∈ st.pendingUploads →
        v.timestamp < now - 5 * 60 * 1000 ∧ v.verified = false) →
      LanReceiver.handleFileUpload
        (LanReceiver.handleUploadRequest1 st
          (LanReceiver.Stage1Body.parsed (some filename) (some size) (some hash) ca ma)
          now newId fvm).2
        (some uid) (some code) (some fh) ct parse tok sha =
        (⟨404, false, "Upload request not found or expired"⟩,
          (LanReceiver.handleUploadRequest1 st
            (LanReceiver.Stage1Body.parsed (some filename) (some size) (some hash) ca ma)
            now newId fvm).2)) := by
  constructor
  · intro hget
    exact handleFileUpload_not_found st uid code fh ct parse tok sha huid hcode hfh hget
  · intro hfn hsz hh hquota hk hexp
    exact handleFileUpload_not_found _ uid code fh ct parse tok sha huid hcode hfh
      (handleUploadRequest1_cleanup st filename size hash ca ma now newId fvm uid
        hfn hsz hh hquota hk hexp)

/-- C6 witness: the amended theorem applied to a concrete receiver — a
lookup of an unknown id, and a lookup of `sampleUr`'s id after a stage-1
request garbage-collected the expired entry. -/
theorem claim6_upload_lookup_amended_witness :
    LanReceiver.handleFileUpload sampleReceiver (some "nope") (some "123456") (some "h")
        "x" LanReceiver.BodyParse.noFile "tok" sampleSha =
      (⟨404, false, "Upload request not found or expired"⟩, sampleReceiver) ∧
    LanReceiver.handleFileUpload
        (LanReceiver.handleUploadRequest1 sampleReceiver
          (LanReceiver.Stage1Body.parsed (some "g.txt") (some 7) (some "h2") none none)
          3600000 "id2" sampleVm).2
        (some "id1") (some "123456") (some "h") "x" LanReceiver.BodyParse.noFile "tok"
        sampleSha =
      (⟨404, false, "Upload request not found or expired"⟩,
        (LanReceiver.handleUploadRequest1 sampleReceiver
          (LanReceiver.Stage1Body.parsed (some "g.txt") (some 7) (some "h2") none none)
          3600000 "id2" sampleVm).2) :=
  ⟨(claim6_upload_lookup_amended sampleReceiver "nope" "123456" "h" "x"
      LanReceiver.BodyParse.noFile "tok" sampleSha "g.txt" 7 "h2" none none 3600000 "id2"
      sampleVm (by decide) (by decide) (by decide)).1 (by decide),
   (claim6_upload_lookup_amended sampleReceiver "id1" "123456" "h" "x"
      LanReceiver.BodyParse.noFile "tok" sampleSha "g.txt" 7 "h2" none none 3600000 "id2"
      sampleVm (by decide) (by decide) (by decide)).2 (by decide) (by decide) (by decide)
      (by simp [sampleReceiver]) (by decide)
      (by
        intro v hv
        have hveq : v = sampleUr := by
          simp [sampleReceiver] at hv
          exact hv
        subst hveq
        exact ⟨by decide, rfl⟩)⟩

/-! ## Claim C7 -/

/-- C7 counterexample: the claim is false as stated.  A stage-2 upload with
a valid id, code and hash but a non-multipart content type is answered 400,
yet the handler has already mutated state: the stored pending upload's
`verified` flag, `false` before the request, is `true` afterwards (and a
session token has been recorded). -/
theorem claim7_counterexample :
    sampleUr.verified = false ∧
    (LanReceiver.handleFileUpload sampleReceiver (some "id1") (some "123456") (some "h")
      "text/plain" (LanReceiver.BodyParse.fileFound "f.txt" "a" [1]) "tok" sampleSha).1 =
      ⟨400, false, "Invalid content type"⟩ ∧
    (alGet "id1"
      (LanReceiver.handleFileUpload sampleReceiver (some "id1") (some "123456") (some "h")
        "text/plain" (LanReceiver.BodyParse.fileFound "f.txt" "a" [1]) "tok"
        sampleSha).2.pendingUploads).map (fun u => u.verified) = some true := by
  refine ⟨rfl, by decide, by decide⟩

/-- C7 (amended): only the missing-headers 400 leaves the state untouched.
The multipart-related 400s (non-multipart content type, invalid boundary)
leave `uploadCount`, the disk and the entry's presence unchanged but first
set the entry's `verified` flag and record a session token; and a parsed
body with no file part is answered 500, not 400. -/
theorem claim7_client_error_amended (st : LanReceiver.ReceiverState)
    (uploadId verificationCode fileHash : Option String)
    (uid code fh ct : String) (parse : LanReceiver.BodyParse) (tok : String)
    (sha : List Nat → String) (ur : LanReceiver.UploadRequest) :
    ((jsTruthy uploadId = false ∨ jsTruthy verificationCode = false ∨
        jsTruthy fileHash = false) →
      LanReceiver.handleFileUpload st uploadId verificationCode fileHash ct parse tok sha =
        (⟨400, false, "Missing upload ID, verification code, or file hash"⟩, st)) ∧
    (uid ≠ "" → code ≠ "" → fh ≠ "" →
      alGet uid st.pendingUploads = some ur →
      jsTrim code = ur.verificationManager.verificationCode →
      ur.hash = fh →
      (listIncludes "multipart/form-data".toList ct.toList = false ∨
        (listIncludes "multipart/form-data".toList ct.toList = true ∧
          LanReceiver.extractBoundary ct = none)) →
      ((LanReceiver.handleFileUpload st (some uid) (some code) (some fh) ct parse tok
          sha).1.status = 400 ∧
        (LanReceiver.handleFileUpload st (some uid) (some code) (some fh) ct parse tok
          sha).2.uploadCount = st.uploadCount ∧
        (LanReceiver.handleFileUpload st (some uid) (some code) (some fh) ct parse tok
          sha).2.disk = st.disk ∧
        alGet uid (LanReceiver.handleFileUpload st (some uid) (some code) (some fh) ct parse
            tok sha).2.pendingUploads =
          some { ur with
                 verificationManager := ur.verificationManager.addSession tok,
                 verified := true })) ∧
    (uid ≠ "" → code ≠ "" → fh ≠ "" →
      alGet uid st.pendingUploads = some ur →
      jsTrim code = ur.verificationManager.verificationCode →
      ur.hash = fh →
      listIncludes "multipart/form-data".toList ct.toList = true →
      (∃ b, LanReceiver.extractBoundary ct = some b) →
      (LanReceiver.handleFileUpload st (some uid) (some code) (some fh) ct
        LanReceiver.BodyParse.noFile tok sha).1.status = 500) := by
  refine ⟨?_, ?_, ?_⟩
  · intro hmiss
    rcases hmiss with h | h | h <;>
      simp [LanReceiver.handleFileUpload, h]
  · intro huid hcode hfh hget hgood hhash hmp
    rcases hmp with hct | ⟨hct, hb⟩ <;>
      simp_all [LanReceiver.handleFileUpload, jsTruthy,
        VerificationManager.verifyAndCreateSession, alGet_alSet_self]
  · intro huid hcode hfh hget hgood hhash hct hb
    obtain ⟨b, hbe⟩ := hb
    simp_all [LanReceiver.handleFileUpload, jsTruthy,
      VerificationManager.verifyAndCreateSession]

/-- C7 witness: the amended theorem applied to a concrete receiver — a
request with no `X-Upload-Id`, a valid request with a non-multipart content
type, and a valid multipart request whose body holds no file part. -/
theorem claim7_client_error_amended_witness :
    LanReceiver.handleFileUpload sampleReceiver none (some "123456") (some "h") "x"
        LanReceiver.BodyParse.noFile "tok" sampleSha =
      (⟨400, false, "Missing upload ID, verification code, or file hash"⟩, sampleReceiver) ∧
    ((LanReceiver.handleFileUpload sampleReceiver (some "id1") (some "123456") (some "h")
        "text/plain" LanReceiver.BodyParse.noFile "tok" sampleSha).1.status = 400 ∧
      (LanReceiver.handleFileUpload sampleReceiver (some "id1") (some "123456") (some "h")
        "text/plain" LanReceiver.BodyParse.noFile "tok" sampleSha).2.uploadCount =
        sampleReceiver.uploadCount ∧
      (LanReceiver.handleFileUpload sampleReceiver (some "id1") (some "123456") (some "h")
        "text/plain" LanReceiver.BodyParse.noFile "tok" sampleSha).2.disk =
        sampleReceiver.disk ∧
      alGet "id1" (LanReceiver.handleFileUpload sampleReceiver (some "id1") (some "123456")
          (some "h") "text/plain" LanReceiver.BodyParse.noFile "tok"
          sampleSha).2.pendingUploads =
        some { sampleUr with
               verificationManager := sampleUr.verificationManager.addSession "tok",
               verified := true }) ∧
    (LanReceiver.handleFileUpload sampleReceiver (some "id1") (some "123456") (some "h")
      "multipart/form-data; boundary=X" LanReceiver.BodyParse.noFile "tok"
      sampleSha).1.status = 500 :=
  ⟨(claim7_client_error_amended sampleReceiver none (some "123456") (some "h")
      "id1" "123456" "h" "x" LanReceiver.BodyParse.noFile "tok" sampleSha sampleUr).1
      (Or.inl (by decide)),
   (claim7_client_error_amended sampleReceiver none (some "123456") (some "h")
      "id1" "123456" "h" "text/plain" LanReceiver.BodyParse.noFile "tok" sampleSha
      sampleUr).2.1 (by decide) (by decide) (by decide) (by decide) (by decide) (by decide)
      (Or.inl (by decide)),
   (claim7_client_error_amended sampleReceiver none (some "123456") (some "h")
      "id1" "123456" "h" "multipart/form-data; boundary=X" LanReceiver.BodyParse.noFile
      "tok" sampleSha sampleUr).2.2 (by decide) (by decide) (by decide) (by decide)
      (by decide) (by decide) (by decide)
      ⟨"X", by decide⟩⟩

end Howl
